import Mathlib

/-!
Shallow embedding of the core of the `0crm-skill` repository:
the resilient request executor and validators of
`src/examples/error_handling.py`, and the pipeline aggregation functions of
`src/examples/pipeline_report.py`.

HTTP response bodies are modelled as opaque already-decoded JSON values
(a `String` placeholder): `response.json()` hands the body back unchanged.
HTTP statuses are three-digit codes carried as `Nat`.
Python numbers appearing in deal values are modelled as `Int`
(the repository only ever uses integer deal values); ratios computed with
Python float division (`/`) are modelled exactly in `ℚ`.
-/

namespace ZeroCrm

/-- Outcome of the transport layer for one attempt of
`make_request_with_retry` (`requests.request` at
src/examples/error_handling.py lines 64-70): either a response with a
status code and a decoded body, or one of the exceptions the code catches
(`ConnectionError`, `Timeout`, any other `RequestException`). -/
inductive TransportResult where
  | resp (status : Nat) (body : String)
  | connError
  | timeout
  | otherError
deriving Repr, DecidableEq

/-- Classification of one attempt: return the decoded body, return `None`
immediately, or take the retry branch. -/
inductive StepClass where
  | success (body : String)
  | terminal
  | retryable
deriving Repr, DecidableEq

/-- How one attempt is handled by the `try`/`except` ladder of
`make_request_with_retry` (src/examples/error_handling.py lines 61-127):
`success body` means `response.json()` is returned, `terminal` means
`return None` without further attempts, `retryable` means the
backoff-and-retry branch is taken.

`response.raise_for_status()` raises `HTTPError` exactly when
`400 ≤ status < 600`; inside the `except HTTPError` handler the code checks
401, then 404, then 400, then `status >= 500`, and treats every other
raising status as terminal. A status outside `400..599` never raises, so
the code falls through to `return response.json()`. -/
def classify : TransportResult → StepClass
  | .resp s b =>
      if 400 ≤ s ∧ s < 600 then
        if s = 401 then .terminal
        else if s = 404 then .terminal
        else if s = 400 then .terminal
        else if 500 ≤ s then .retryable
        else .terminal
      else .success b
  | .connError => .retryable
  | .timeout => .retryable
  | .otherError => .terminal

/-- Observable behaviour of one call of `make_request_with_retry`: the value
returned to the caller (`response.json()` or `None`), the number of attempts
performed, and the list of `time.sleep` durations in seconds, in order. -/
structure RunResult where
  result : Option String
  attempts : Nat
  delays : List Nat
deriving Repr, DecidableEq

/-- The retry loop `for attempt in range(max_retries)` of
`make_request_with_retry` (src/examples/error_handling.py lines 60-129),
unrolled as recursion on the number of remaining loop iterations.
`remaining = max_retries - attempt`; on a retryable failure the code sleeps
`backoff_factor ** attempt` seconds and continues only when
`attempt < max_retries - 1` (i.e. `remaining > 1`), otherwise returns `None`;
falling off the loop returns `None`. -/
def runAux (transport : Nat → TransportResult) (backoffFactor : Nat) :
    Nat → Nat → RunResult
  | 0, _ => ⟨none, 0, []⟩
  | remaining + 1, attempt =>
    match classify (transport attempt) with
    | .success b => ⟨some b, 1, []⟩
    | .terminal => ⟨none, 1, []⟩
    | .retryable =>
      if remaining = 0 then ⟨none, 1, []⟩
      else
        ⟨(runAux transport backoffFactor remaining (attempt + 1)).result,
         (runAux transport backoffFactor remaining (attempt + 1)).attempts + 1,
         backoffFactor ^ attempt :: (runAux transport backoffFactor remaining (attempt + 1)).delays⟩

/-- `make_request_with_retry(method, endpoint, max_retries, backoff_factor)`
(src/examples/error_handling.py lines 44-129), with the transport as an
explicit function from 0-based attempt index to what `requests.request`
yields on that attempt. -/
def make_request_with_retry (transport : Nat → TransportResult)
    (maxRetries backoffFactor : Nat) : RunResult :=
  runAux transport backoffFactor maxRetries 0

/-- A retryable failure in the sense of the retry policy: an HTTP response
whose (three-digit) status is at least 500, a connection failure, or a
timeout. -/
def retryableFailure : TransportResult → Bool
  | .resp s _ => 500 ≤ s && s < 600
  | .connError => true
  | .timeout => true
  | .otherError => false

/-- Python `str.strip()` whitespace characters (ASCII range). -/
def isPySpace (ch : Char) : Bool :=
  ch = ' ' || ch = '\t' || ch = '\n' || ch = '\r' || ch = '\x0B' || ch = '\x0C'

/-- Python `s.strip()`: remove leading and trailing whitespace. -/
def pyStrip (s : String) : String :=
  String.mk (((s.data.dropWhile isPySpace).reverse.dropWhile isPySpace).reverse)

/-- A contact record: a Python dict with string keys and string values,
modelled as an association list in which the first binding of a key wins
(a dict's keys are unique, so this is faithful). -/
abbrev Contact := List (String × String)

/-- `contact.get(k)`: the value of the first binding of `k`, absent
(`None`) when no binding exists. -/
def pyGet (c : Contact) (k : String) : Option String :=
  (c.find? (fun p => p.1 == k)).map (fun p => p.2)

/-- Python truthiness of an optional string field: `None` and the empty
string are falsy, every other string is truthy. -/
def truthy (o : Option String) : Bool :=
  match o with
  | none => false
  | some s => !(s == "")

/-- `validate_contact(contact)` (src/examples/error_handling.py lines
132-159). The Python function returns a pair `(is_valid, error_message)`
with `error_message = None` on success; this is rendered as `Option String`
(`none` = valid, `some msg` = the error message). -/
def validate_contact (contact : Contact) : Option String :=
  if ¬ truthy (pyGet contact "name") then some "Missing required field: name"
  else if pyStrip ((pyGet contact "name").getD "") = "" then some "Name cannot be empty"
  else
    let email := (pyGet contact "email").getD ""
    if email ≠ "" ∧ ¬ email.data.contains '@' then some ("Invalid email format: " ++ email)
    else
      let phone := (pyGet contact "phone").getD ""
      if phone ≠ "" ∧ phone.length < 5 then some ("Phone number too short: " ++ phone)
      else none

/-- A deal record: a Python dict with the fields the core reads. Absent
keys are `none`; `value` is a number (the repository only uses integers). -/
structure Deal where
  title : Option String := none
  stage : Option String := none
  value : Option Int := none
  priority : Option String := none
  contact_id : Option String := none
deriving Repr, DecidableEq

/-- `validate_deal(deal)` (src/examples/error_handling.py lines 162-190),
rendered as `Option String` exactly like `validate_contact`. -/
def validate_deal (deal : Deal) : Option String :=
  if ¬ truthy deal.title then some "Missing required field: title"
  else if ¬ truthy deal.stage then some "Missing required field: stage"
  else if deal.value.getD 0 < 0 then
    some ("Deal value cannot be negative: " ++ toString (deal.value.getD 0))
  else
    let priority := deal.priority.getD ""
    if priority ≠ "" ∧ ¬ (priority = "Low" ∨ priority = "Medium" ∨ priority = "High") then
      some ("Invalid priority: " ++ priority ++ " (must be one of ['Low', 'Medium', 'High'])")
    else none

/-- The `name` rule of the contact claim: `name` absent, or empty, or
whitespace-only after trimming (an empty string trims to itself). -/
@[reducible] def nameMissing (c : Contact) : Prop :=
  pyGet c "name" = none ∨ pyStrip ((pyGet c "name").getD "") = ""

/-- The effective `email` field of a contact, `''` when absent. -/
@[reducible] def contactEmail (c : Contact) : String := (pyGet c "email").getD ""

/-- The effective `phone` field of a contact, `''` when absent. -/
@[reducible] def contactPhone (c : Contact) : String := (pyGet c "phone").getD ""

/-- The `email` rule of the contact claim: present, non-empty, and without
an `@`. -/
@[reducible] def emailBad (c : Contact) : Prop :=
  contactEmail c ≠ "" ∧ ¬ (contactEmail c).data.contains '@'

/-- The `phone` rule of the contact claim: present, non-empty, and shorter
than 5 characters. -/
@[reducible] def phoneBad (c : Contact) : Prop :=
  contactPhone c ≠ "" ∧ (contactPhone c).length < 5

/-- A missing-name error of `validate_contact` (either of the two messages
the code produces for a bad name). -/
@[reducible] def isNameErr (r : Option String) : Prop :=
  r = some "Missing required field: name" ∨ r = some "Name cannot be empty"

/-- An invalid-email error of `validate_contact`. -/
@[reducible] def isEmailErr (r : Option String) : Prop :=
  ∃ e, r = some ("Invalid email format: " ++ e)

/-- An invalid-phone error of `validate_contact`. -/
@[reducible] def isPhoneErr (r : Option String) : Prop :=
  ∃ p, r = some ("Phone number too short: " ++ p)

/-- The `priority` rule of the deal claim: present, non-empty, and not
exactly one of `Low`, `Medium`, `High`. -/
@[reducible] def priorityBad (d : Deal) : Prop :=
  d.priority.getD "" ≠ "" ∧
    ¬ (d.priority.getD "" = "Low" ∨ d.priority.getD "" = "Medium" ∨
       d.priority.getD "" = "High")

/-- Per-group aggregate of the report functions: deal count and summed
value (`{'count': 0, 'value': 0}` in the source). -/
structure Bucket where
  count : Nat
  value : Int
deriving Repr, DecidableEq

/-- `deal.get('stage', 'Unknown')`. -/
def effStage (d : Deal) : String := d.stage.getD "Unknown"

/-- `deal.get('value', 0)`. -/
def effValue (d : Deal) : Int := d.value.getD 0

/-- `deal.get('priority', 'Not Set')`. -/
def effPriority (d : Deal) : String := d.priority.getD "Not Set"

/-- One `dict[k]['count'] += 1; dict[k]['value'] += v` update (creating
`{'count': 0, 'value': 0}` first when `k` is new) of a Python dict modelled
as an insertion-ordered association list: the first binding of `k` is
updated in place, a missing key is appended at the end. -/
def bump : List (String × Bucket) → String → Int → List (String × Bucket)
  | [], k, v => [(k, ⟨1, v⟩)]
  | (k', b) :: rest, k, v =>
    if k' = k then (k', ⟨b.count + 1, b.value + v⟩) :: rest
    else (k', b) :: bump rest k v

/-- The dict-building loop shared by `pipeline_by_stage` and
`priority_breakdown` (src/examples/pipeline_report.py lines 68-77 and
129-138): group the deals by `key`, accumulating count and effective value
per group, in first-encounter order. -/
def groupRecords (key : Deal → String) (deals : List Deal) : List (String × Bucket) :=
  deals.foldl (fun m d => bump m (key d) (effValue d)) []

/-- Everything observable about `pipeline_by_stage(deals)`
(src/examples/pipeline_report.py lines 64-92): `stages` is the dict the
function returns (insertion order); `sortedStages` is
`sorted(stages.items(), key=lambda x: x[1]['value'], reverse=True)` — a
stable descending sort, modelled by insertion sort, which agrees with every
stable sort under the same key; `totalValue` and `totalCount` are the
printed grand totals; `percentages` are the printed per-group percentages,
`value / total_value * 100` when `total_value > 0` and `0` otherwise. -/
structure StageReport where
  stages : List (String × Bucket)
  sortedStages : List (String × Bucket)
  totalValue : Int
  totalCount : Nat
  percentages : List (String × ℚ)
deriving Repr, DecidableEq

/-- `pipeline_by_stage(deals)` (src/examples/pipeline_report.py lines
64-92). -/
def pipeline_by_stage (deals : List Deal) : StageReport :=
  let stages := groupRecords effStage deals
  let sorted := stages.insertionSort (fun a b => b.2.value ≤ a.2.value)
  let totalValue := (sorted.map (fun p => p.2.value)).sum
  let totalCount := (sorted.map (fun p => p.2.count)).sum
  ⟨stages, sorted, totalValue, totalCount,
    sorted.map (fun p =>
      (p.1, if 0 < totalValue then (p.2.value : ℚ) / (totalValue : ℚ) * 100 else 0))⟩

/-- The record `win_rate_analysis(deals)` returns. -/
structure WinRateResult where
  total : Nat
  won : Nat
  lost : Nat
  active : Int
  win_rate : ℚ
deriving Repr, DecidableEq

/-- `win_rate_analysis(deals)` (src/examples/pipeline_report.py lines
95-122): Python float division is modelled exactly in `ℚ`. -/
def win_rate_analysis (deals : List Deal) : WinRateResult :=
  let total := deals.length
  let won := (deals.filter (fun d => d.stage == some "Closed Won")).length
  let lost := (deals.filter (fun d => d.stage == some "Closed Lost")).length
  let active : Int := (total : Int) - won - lost
  let win_rate : ℚ := if 0 < won + lost then (won : ℚ) / ((won : ℚ) + (lost : ℚ)) * 100 else 0
  ⟨total, won, lost, active, win_rate⟩

/-- The fixed `stage_probability` table of `forecast_analysis`
(src/examples/pipeline_report.py lines 213-220) together with the
`.get(stage, 0.3)` default. -/
def stage_probability (s : String) : ℚ :=
  if s = "Lead" then 1/10
  else if s = "Qualified" then 1/4
  else if s = "Proposal Sent" then 1/2
  else if s = "Negotiation" then 3/4
  else if s = "Closed Won" then 1
  else if s = "Closed Lost" then 0
  else 3/10

/-- The probability table exactly as the claim words it, for comparison
with `stage_probability`: Lead 0.1, Qualified 0.25, Proposal Sent 0.5,
Negotiation 0.75, and 0.3 for any other stage. -/
def claimProbability (s : String) : ℚ :=
  if s = "Lead" then 1/10
  else if s = "Qualified" then 1/4
  else if s = "Proposal Sent" then 1/2
  else if s = "Negotiation" then 3/4
  else 3/10

/-- `forecast_analysis(deals)` (src/examples/pipeline_report.py lines
208-235): the accumulation loop over the deals, returning
`(active_pipeline, weighted_pipeline)`. -/
def forecast_analysis (deals : List Deal) : Int × ℚ :=
  deals.foldl
    (fun acc d =>
      if ¬ (effStage d = "Closed Won" ∨ effStage d = "Closed Lost") then
        (acc.1 + effValue d, acc.2 + (effValue d : ℚ) * stage_probability (effStage d))
      else acc)
    (0, 0)

/-- The fixed reporting order of `priority_breakdown`
(src/examples/pipeline_report.py line 141). -/
def priority_order : List String := ["High", "Medium", "Low", "Not Set"]

/-- `priority_breakdown(deals)` (src/examples/pipeline_report.py lines
125-146): group deals by priority (default `Not Set`), then report, in the
fixed order High, Medium, Low, Not Set, the buckets of those priorities
that are present; buckets under any other key exist in the dict but are
never reported. The observable output of the function is this reported
list. -/
def priority_breakdown (deals : List Deal) : List (String × Bucket) :=
  let priorities := groupRecords effPriority deals
  priority_order.filterMap (fun p =>
    (priorities.find? (fun q => q.1 == p)).map (fun q => (p, q.2)))

/-- Value of a key in a bucket dict, `{'count': 0, 'value': 0}` when the
key is absent (the value every key starts from in the building loop). -/
def lookupB (l : List (String × Bucket)) (k : String) : Bucket :=
  match l.find? (fun q => q.1 == k) with
  | some q => q.2
  | none => ⟨0, 0⟩

/-- Sum of the bucket values of a bucket list. -/
def sumValues (l : List (String × Bucket)) : Int := (l.map (fun p => p.2.value)).sum

/-- Sum of the bucket counts of a bucket list. -/
def sumCounts (l : List (String × Bucket)) : Nat := (l.map (fun p => p.2.count)).sum

/-- Number of deals whose `key` field equals `k`. -/
def cntKey (key : Deal → String) (k : String) (deals : List Deal) : Nat :=
  (deals.filter (fun d => key d == k)).length

/-- Summed effective value of the deals whose `key` field equals `k`. -/
def sumKey (key : Deal → String) (k : String) (deals : List Deal) : Int :=
  ((deals.filter (fun d => key d == k)).map effValue).sum

/-- The distinct values of `key` over `deals`, in first-encounter order —
the key order of a Python dict built by the grouping loops. -/
def firstOccurKeys (key : Deal → String) (deals : List Deal) : List String :=
  deals.foldl (fun ks d => if key d ∈ ks then ks else ks ++ [key d]) []

example : (pipeline_by_stage [⟨none, some "A", some 1, none, none⟩,
    ⟨none, some "B", some 2, none, none⟩]).stages = [("A", ⟨1, 1⟩), ("B", ⟨1, 2⟩)] := by decide
example : (pipeline_by_stage [⟨none, some "A", some 1, none, none⟩,
    ⟨none, some "B", some 2, none, none⟩]).sortedStages =
    [("B", ⟨1, 2⟩), ("A", ⟨1, 1⟩)] := by decide
example : (pipeline_by_stage [⟨none, some "A", some (-100), none, none⟩]).percentages =
    [("A", 0)] := by decide
example : priority_breakdown [⟨none, none, some 7, some "Urgent", none⟩] = [] := by decide
example : priority_breakdown [⟨none, none, some 7, some "Low", none⟩,
    ⟨none, none, some 2, none, none⟩] =
    [("Low", ⟨1, 7⟩), ("Not Set", ⟨1, 2⟩)] := by decide
example : forecast_analysis [⟨none, some "Closed Won", some 25000, none, none⟩,
    ⟨none, some "Closed Lost", some 10000, none, none⟩,
    ⟨none, some "Negotiation", some 45000, none, none⟩] = (45000, 33750) := by
  have h : forecast_analysis [⟨none, some "Closed Won", some 25000, none, none⟩,
      ⟨none, some "Closed Lost", some 10000, none, none⟩,
      ⟨none, some "Negotiation", some 45000, none, none⟩] =
      ((0 : Int) + 45000, (0 : ℚ) + ((45000 : Int) : ℚ) * stage_probability "Negotiation") := rfl
  rw [h]
  norm_num [stage_probability, Prod.ext_iff]
  rw [if_neg (by decide), if_neg (by decide), if_neg (by decide)]
example : win_rate_analysis [⟨none, some "Closed Won", some 25000, none, none⟩,
    ⟨none, some "Closed Lost", some 10000, none, none⟩,
    ⟨none, some "Negotiation", some 45000, none, none⟩] = ⟨3, 1, 1, 1, 50⟩ := by
  have h : win_rate_analysis [⟨none, some "Closed Won", some 25000, none, none⟩,
      ⟨none, some "Closed Lost", some 10000, none, none⟩,
      ⟨none, some "Negotiation", some 45000, none, none⟩] =
      ⟨3, 1, 1, 1, ((1 : Nat) : ℚ) / (((1 : Nat) : ℚ) + ((1 : Nat) : ℚ)) * 100⟩ := rfl
  rw [h]
  norm_num [WinRateResult.mk.injEq]

example : make_request_with_retry (fun _ => .resp 500 "x") 3 2 = ⟨none, 3, [1, 2]⟩ := by decide
example : make_request_with_retry (fun i => if i < 2 then .resp 500 "x" else .resp 200 "ok") 3 2 =
    ⟨some "ok", 3, [1, 2]⟩ := by decide
example : make_request_with_retry (fun _ => .resp 404 "x") 3 2 = ⟨none, 1, []⟩ := by decide
example : make_request_with_retry (fun _ => .resp 301 "b") 3 2 = ⟨some "b", 1, []⟩ := by decide

lemma classify_of_retryable {x : TransportResult} (h : retryableFailure x = true) :
    classify x = .retryable := by
  cases x with
  | resp s b =>
    simp only [retryableFailure, Bool.and_eq_true, decide_eq_true_eq] at h
    simp only [classify]
    split_ifs <;> first | rfl | omega
  | connError => rfl
  | timeout => rfl
  | otherError => simp [retryableFailure] at h

lemma classify_of_2xx {s : Nat} (b : String) (h1 : 200 ≤ s) (h2 : s < 300) :
    classify (.resp s b) = .success b := by
  simp only [classify]
  split_ifs <;> first | rfl | omega

lemma classify_of_terminal_status {s : Nat} (b : String)
    (h : s = 401 ∨ s = 404 ∨ s = 400) : classify (.resp s b) = .terminal := by
  simp only [classify]
  split_ifs <;> first | rfl | omega

lemma range_pow_shift (f a n : Nat) :
    (List.range (n + 1)).map (fun j => f ^ (a + j)) =
      f ^ a :: (List.range n).map (fun j => f ^ (a + 1 + j)) := by
  rw [List.range_succ_eq_map, List.map_cons, List.map_map]
  refine List.cons_eq_cons.mpr ⟨rfl, ?_⟩
  apply List.map_congr_left
  intro j _
  have : a + Nat.succ j = a + 1 + j := by omega
  simp [Function.comp, this]

lemma runAux_step (t : Nat → TransportResult) (f remaining attempt : Nat) :
    runAux t f (remaining + 1) attempt =
      match classify (t attempt) with
      | .success b => ⟨some b, 1, []⟩
      | .terminal => ⟨none, 1, []⟩
      | .retryable =>
        if remaining = 0 then ⟨none, 1, []⟩
        else
          ⟨(runAux t f remaining (attempt + 1)).result,
           (runAux t f remaining (attempt + 1)).attempts + 1,
           f ^ attempt :: (runAux t f remaining (attempt + 1)).delays⟩ := rfl

lemma runAux_all_retryable (t : Nat → TransportResult) (f : Nat) :
    ∀ r a, 0 < r → (∀ i, i < r → classify (t (a + i)) = .retryable) →
    runAux t f r a = ⟨none, r, (List.range (r - 1)).map (fun j => f ^ (a + j))⟩ := by
  intro r
  induction r with
  | zero => omega
  | succ r ih =>
    intro a _ hc
    have h0 : classify (t a) = .retryable := by simpa using hc 0 (Nat.succ_pos r)
    cases r with
    | zero =>
      rw [runAux_step]
      simp [h0]
    | succ r' =>
      have hrest := ih (a + 1) (Nat.succ_pos r') (fun i hi => by
        have := hc (i + 1) (by omega)
        simpa [show a + (i + 1) = a + 1 + i by omega] using this)
      rw [runAux_step]
      simp only [h0]
      rw [if_neg (show ¬ r' + 1 = 0 by omega), hrest]
      simp [Nat.add_sub_cancel, range_pow_shift]

lemma runAux_stops (t : Nat → TransportResult) (f : Nat) :
    ∀ k r a, k < r → (∀ j, j < k → classify (t (a + j)) = .retryable) →
    (∀ b, classify (t (a + k)) = .success b →
      runAux t f r a = ⟨some b, k + 1, (List.range k).map (fun j => f ^ (a + j))⟩) ∧
    (classify (t (a + k)) = .terminal →
      runAux t f r a = ⟨none, k + 1, (List.range k).map (fun j => f ^ (a + j))⟩) := by
  intro k
  induction k with
  | zero =>
    intro r a hk _
    obtain ⟨r', rfl⟩ : ∃ r', r = r' + 1 := ⟨r - 1, by omega⟩
    constructor
    · intro b hb
      simp only [Nat.add_zero] at hb
      rw [runAux_step]
      simp [hb]
    · intro hb
      simp only [Nat.add_zero] at hb
      rw [runAux_step]
      simp [hb]
  | succ k ih =>
    intro r a hk hr
    obtain ⟨r', rfl⟩ : ∃ r', r = r' + 1 := ⟨r - 1, by omega⟩
    have h0 : classify (t a) = .retryable := by simpa using hr 0 (Nat.succ_pos k)
    have hr' : ∀ j, j < k → classify (t (a + 1 + j)) = .retryable := fun j hj => by
      have := hr (j + 1) (by omega)
      simpa [show a + (j + 1) = a + 1 + j by omega] using this
    have hih := ih r' (a + 1) (by omega) hr'
    constructor
    · intro b hb
      have hrec := hih.1 b (by simpa [show a + 1 + k = a + (k + 1) by omega] using hb)
      rw [runAux_step]
      simp only [h0]
      rw [if_neg (show ¬ r' = 0 by omega), hrec]
      simp [range_pow_shift]
    · intro hb
      have hrec := hih.2 (by simpa [show a + 1 + k = a + (k + 1) by omega] using hb)
      rw [runAux_step]
      simp only [h0]
      rw [if_neg (show ¬ r' = 0 by omega), hrec]
      simp [range_pow_shift]

lemma run_single_terminal {x : TransportResult} (h : classify x = .terminal)
    {m : Nat} (f : Nat) (hm : 0 < m) :
    make_request_with_retry (fun _ => x) m f = ⟨none, 1, []⟩ := by
  obtain ⟨m', rfl⟩ : ∃ m', m = m' + 1 := ⟨m - 1, by omega⟩
  show runAux _ f (m' + 1) 0 = _
  rw [runAux_step]
  simp [h]

lemma run_single_success {x : TransportResult} {b : String}
    (h : classify x = .success b) {m : Nat} (f : Nat) (hm : 0 < m) :
    make_request_with_retry (fun _ => x) m f = ⟨some b, 1, []⟩ := by
  obtain ⟨m', rfl⟩ : ∃ m', m = m' + 1 := ⟨m - 1, by omega⟩
  show runAux _ f (m' + 1) 0 = _
  rw [runAux_step]
  simp [h]

/-- C1: if every one of the first `maxRetries` attempts yields a retryable
failure (HTTP status ≥ 500, connection failure, or timeout), the executor
performs exactly `maxRetries` attempts, sleeps `backoffFactor ^ i` seconds
after the failed attempt with 0-based index `i` for every `i < maxRetries - 1`
(so delays 1 and 2 seconds for `maxRetries = 3`, `backoffFactor = 2`), does
not sleep after the final attempt, and returns `None`; if instead the attempt
with index `k` yields a 2xx response after retryable failures, the executor
stops after that attempt and returns the decoded body. -/
theorem executor_retry_and_backoff (t : Nat → TransportResult) (m f : Nat) :
    ((∀ i, i < m → retryableFailure (t i) = true) →
      make_request_with_retry t m f =
        ⟨none, m, (List.range (m - 1)).map (fun j => f ^ j)⟩) ∧
    (∀ k s b, k < m → (∀ j, j < k → retryableFailure (t j) = true) →
      t k = .resp s b → 200 ≤ s → s < 300 →
      make_request_with_retry t m f =
        ⟨some b, k + 1, (List.range k).map (fun j => f ^ j)⟩) := by
  constructor
  · intro hall
    rcases Nat.eq_zero_or_pos m with rfl | hm
    · rfl
    · have := runAux_all_retryable t f m 0 hm (fun i hi => by
        simpa using classify_of_retryable (hall i hi))
      simpa using this
  · intro k s b hk hr ht h2 h3
    have hsucc : classify (t (0 + k)) = .success b := by
      simpa [ht] using classify_of_2xx (s := s) b h2 h3
    have := (runAux_stops t f k m 0 hk (fun j hj => by
      simpa using classify_of_retryable (hr j hj))).1 b hsucc
    simpa using this

/-- C1 witness: with a transport that always yields a connection failure and
`maxRetries = 3`, `backoffFactor = 2`, the executor makes 3 attempts with
delays 1 and 2 seconds and returns `None`; with 503 on the first two attempts
and 200 on the third it makes 3 attempts and returns the body. -/
theorem executor_retry_and_backoff_witness :
    make_request_with_retry (fun _ => .connError) 3 2 = ⟨none, 3, [1, 2]⟩ ∧
    make_request_with_retry
      (fun i => if i < 2 then .resp 503 "e" else .resp 200 "ok") 3 2 =
      ⟨some "ok", 3, [1, 2]⟩ := by
  constructor
  · rw [(executor_retry_and_backoff (fun _ => .connError) 3 2).1 (fun i _ => rfl)]
    decide
  · rw [(executor_retry_and_backoff
      (fun i => if i < 2 then .resp 503 "e" else .resp 200 "ok") 3 2).2
      2 200 "ok" (by decide) (fun j hj => by interval_cases j <;> rfl)
      (by decide) (by decide) (by decide)]
    decide

/-- C2: if the attempt with index `k` (reached after retryable failures only)
yields HTTP status 401, 404, or 400, the executor performs no further
attempts, sleeps no further, and returns `None`; and when every attempt fails
retryably (retry exhaustion) the caller also receives `None` — both outcomes
surface as the same absent result. -/
theorem executor_terminal_statuses (t : Nat → TransportResult) (m f : Nat) :
    (∀ k s b, k < m → (∀ j, j < k → retryableFailure (t j) = true) →
      t k = .resp s b → (s = 401 ∨ s = 404 ∨ s = 400) →
      make_request_with_retry t m f =
        ⟨none, k + 1, (List.range k).map (fun j => f ^ j)⟩) ∧
    ((∀ i, i < m → retryableFailure (t i) = true) →
      (make_request_with_retry t m f).result = none) := by
  constructor
  · intro k s b hk hr ht hs
    have hterm : classify (t (0 + k)) = .terminal := by
      simpa [ht] using classify_of_terminal_status (s := s) b hs
    have := (runAux_stops t f k m 0 hk (fun j hj => by
      simpa using classify_of_retryable (hr j hj))).2 hterm
    simpa using this
  · intro hall
    rcases Nat.eq_zero_or_pos m with rfl | hm
    · rfl
    · rw [show make_request_with_retry t m f = runAux t f m 0 from rfl,
        runAux_all_retryable t f m 0 hm (fun i hi => by
          simpa using classify_of_retryable (hall i hi))]

/-- C2 witness: a single 404 response triggers zero retries and an immediate
`None`; three consecutive timeouts also surface as `None`. -/
theorem executor_terminal_statuses_witness :
    make_request_with_retry (fun _ => .resp 404 "x") 3 2 = ⟨none, 1, []⟩ ∧
    (make_request_with_retry (fun _ => .timeout) 3 2).result = none := by
  constructor
  · rw [(executor_terminal_statuses (fun _ => .resp 404 "x") 3 2).1
      0 404 "x" (by decide) (fun j hj => by omega) rfl (by decide)]
    decide
  · exact (executor_terminal_statuses (fun _ => .timeout) 3 2).2 (fun i _ => rfl)

/-- C3 counterexample: an HTTP 301 response is not terminal for the executor:
`response.raise_for_status()` raises only for statuses 400-599, so a 3xx
status falls through to `return response.json()` and is treated as a success.
This falsifies the claim that every non-2xx status outside
{400, 401, 404} ∪ [500, ∞) is terminal. -/
theorem non2xx_status_counterexample :
    classify (.resp 301 "b") = .success "b" ∧
    make_request_with_retry (fun _ => .resp 301 "b") 3 2 = ⟨some "b", 1, []⟩ ∧
    (make_request_with_retry (fun _ => .resp 301 "b") 3 2).result ≠ none := by
  decide

/-- C3 amended: a 2xx status is a success whose decoded body is returned; a
status in 400..499 other than 400, 401, 404 is terminal — never a success and
never retried (one attempt, no sleeps, `None` returned); but a status outside
400..599 (in particular any 3xx) does not raise and is treated as a success
whose decoded body is returned. -/
theorem status_classification_amended (s : Nat) (b : String) (m f : Nat) :
    (200 ≤ s → s < 300 →
      classify (.resp s b) = .success b ∧
      (0 < m → make_request_with_retry (fun _ => .resp s b) m f = ⟨some b, 1, []⟩)) ∧
    (400 ≤ s → s < 500 → s ≠ 400 → s ≠ 401 → s ≠ 404 →
      classify (.resp s b) = .terminal ∧
      (0 < m → make_request_with_retry (fun _ => .resp s b) m f = ⟨none, 1, []⟩)) ∧
    ((s < 400 ∨ 600 ≤ s) →
      classify (.resp s b) = .success b ∧
      (0 < m → make_request_with_retry (fun _ => .resp s b) m f = ⟨some b, 1, []⟩)) := by
  refine ⟨?_, ?_, ?_⟩
  · intro h1 h2
    have hc : classify (.resp s b) = .success b := classify_of_2xx b h1 h2
    exact ⟨hc, fun hm => run_single_success hc f hm⟩
  · intro h1 h2 h3 h4 h5
    have hc : classify (.resp s b) = .terminal := by
      simp only [classify]
      split_ifs <;> first | rfl | omega
    exact ⟨hc, fun hm => run_single_terminal hc f hm⟩
  · intro h1
    have hc : classify (.resp s b) = .success b := by
      simp only [classify]
      split_ifs <;> first | rfl | omega
    exact ⟨hc, fun hm => run_single_success hc f hm⟩

/-- C3 amended witness: status 204 is a success, status 403 is terminal after
a single attempt, and status 304 is handed back as a success body. -/
theorem status_classification_amended_witness :
    make_request_with_retry (fun _ => .resp 204 "d") 3 2 = ⟨some "d", 1, []⟩ ∧
    make_request_with_retry (fun _ => .resp 403 "x") 3 2 = ⟨none, 1, []⟩ ∧
    make_request_with_retry (fun _ => .resp 304 "c") 3 2 = ⟨some "c", 1, []⟩ := by
  refine ⟨?_, ?_, ?_⟩
  · exact ((status_classification_amended 204 "d" 3 2).1 (by decide) (by decide)).2 (by decide)
  · exact ((status_classification_amended 403 "x" 3 2).2.1 (by decide) (by decide)
      (by decide) (by decide) (by decide)).2 (by decide)
  · exact ((status_classification_amended 304 "c" 3 2).2.2 (Or.inl (by decide))).2 (by decide)

example : validate_contact [] = some "Missing required field: name" := by decide
example : validate_contact [("name", "  ")] = some "Name cannot be empty" := by decide
example : validate_contact [("name", "A"), ("email", "bad")] =
    some "Invalid email format: bad" := by decide
example : validate_contact [("name", "A"), ("email", "a@b.com")] = none := by decide
example : validate_deal ⟨some "T", some "Lead", some (-1), none, none⟩ =
    some "Deal value cannot be negative: -1" := by decide
example : validate_deal ⟨some "T", some "Lead", none, some "Urgent", none⟩ =
    some "Invalid priority: Urgent (must be one of ['Low', 'Medium', 'High'])" := by decide

lemma ne_of_data_head {s t : String} (h : s.data.head? ≠ t.data.head?) : s ≠ t :=
  fun he => h (congrArg (fun u => u.data.head?) he)

lemma pyGet_cons_ne (c : Contact) (k v k' : String) (h : k ≠ k') :
    pyGet ((k, v) :: c) k' = pyGet c k' := by
  simp only [pyGet, List.find?, show (k == k') = false from beq_eq_false_iff_ne.mpr h]

lemma emailErr_ne_name1 (e : String) :
    ("Invalid email format: " ++ e) ≠ "Missing required field: name" :=
  ne_of_data_head (by rw [String.data_append]; show some 'I' ≠ some 'M'; decide)

lemma emailErr_ne_name2 (e : String) :
    ("Invalid email format: " ++ e) ≠ "Name cannot be empty" :=
  ne_of_data_head (by rw [String.data_append]; show some 'I' ≠ some 'N'; decide)

lemma phoneErr_ne_name1 (p : String) :
    ("Phone number too short: " ++ p) ≠ "Missing required field: name" :=
  ne_of_data_head (by rw [String.data_append]; show some 'P' ≠ some 'M'; decide)

lemma phoneErr_ne_name2 (p : String) :
    ("Phone number too short: " ++ p) ≠ "Name cannot be empty" :=
  ne_of_data_head (by rw [String.data_append]; show some 'P' ≠ some 'N'; decide)

lemma phoneErr_ne_emailErr (p e : String) :
    ("Phone number too short: " ++ p) ≠ ("Invalid email format: " ++ e) :=
  ne_of_data_head (by
    rw [String.data_append, String.data_append]; show some 'P' ≠ some 'I'; decide)

lemma vc_name_falsy {c : Contact} (h : truthy (pyGet c "name") = false) :
    validate_contact c = some "Missing required field: name" := by
  rw [validate_contact, if_pos (by simp [h])]

lemma vc_name_ws {c : Contact} {s : String} (he : pyGet c "name" = some s)
    (hs : s ≠ "") (hw : pyStrip s = "") :
    validate_contact c = some "Name cannot be empty" := by
  have ht : truthy (pyGet c "name") = true := by rw [he]; simp [truthy, hs]
  rw [validate_contact, if_neg (by simp [ht]), if_pos (by simp [he, hw])]

lemma vc_good {c : Contact} {s : String} (he : pyGet c "name" = some s)
    (hs : s ≠ "") (hw : pyStrip s ≠ "") :
    validate_contact c =
      (if emailBad c then some ("Invalid email format: " ++ contactEmail c)
       else if phoneBad c then some ("Phone number too short: " ++ contactPhone c)
       else none) := by
  have ht : truthy (pyGet c "name") = true := by rw [he]; simp [truthy, hs]
  rw [validate_contact, if_neg (by simp [ht]), if_neg (by simp [he]; exact hw)]

/-- C4: `validate_contact` checks the rules in order, first failure winning:
a missing-name error iff `name` is absent, empty, or whitespace-only after
trimming; otherwise an invalid-email error iff `email` is present, non-empty
and without `@`; otherwise an invalid-phone error iff `phone` is present,
non-empty and shorter than 5 characters; otherwise valid. Unknown fields
never change the outcome, and the three concrete examples of the claim
behave as stated. -/
theorem validate_contact_rules (c : Contact) :
    ((isNameErr (validate_contact c) ↔ nameMissing c) ∧
     (¬ nameMissing c → (isEmailErr (validate_contact c) ↔ emailBad c)) ∧
     (¬ nameMissing c → emailBad c →
       validate_contact c = some ("Invalid email format: " ++ contactEmail c)) ∧
     (¬ nameMissing c → ¬ emailBad c → (isPhoneErr (validate_contact c) ↔ phoneBad c)) ∧
     (¬ nameMissing c → ¬ emailBad c → phoneBad c →
       validate_contact c = some ("Phone number too short: " ++ contactPhone c)) ∧
     (¬ nameMissing c → ¬ emailBad c → ¬ phoneBad c → validate_contact c = none)) ∧
    (∀ k v, k ≠ "name" → k ≠ "email" → k ≠ "phone" →
      validate_contact ((k, v) :: c) = validate_contact c) ∧
    (validate_contact [] = some "Missing required field: name" ∧
     validate_contact [("name", "A"), ("email", "bad")] = some "Invalid email format: bad" ∧
     validate_contact [("name", "A"), ("email", "a@b.com")] = none) := by
  refine ⟨?_, ?_, by decide, by decide, by decide⟩
  · have nameBadCase :
        ∀ (hv : isNameErr (validate_contact c)) (hnm : nameMissing c),
        (isNameErr (validate_contact c) ↔ nameMissing c) ∧
        (¬ nameMissing c → (isEmailErr (validate_contact c) ↔ emailBad c)) ∧
        (¬ nameMissing c → emailBad c →
          validate_contact c = some ("Invalid email format: " ++ contactEmail c)) ∧
        (¬ nameMissing c → ¬ emailBad c →
          (isPhoneErr (validate_contact c) ↔ phoneBad c)) ∧
        (¬ nameMissing c → ¬ emailBad c → phoneBad c →
          validate_contact c = some ("Phone number too short: " ++ contactPhone c)) ∧
        (¬ nameMissing c → ¬ emailBad c → ¬ phoneBad c → validate_contact c = none) := by
      intro hv hnm
      exact ⟨⟨fun _ => hnm, fun _ => hv⟩, fun hn => absurd hnm hn, fun hn => absurd hnm hn,
        fun hn => absurd hnm hn, fun hn => absurd hnm hn, fun hn => absurd hnm hn⟩
    rcases he : pyGet c "name" with _ | s
    · exact nameBadCase (Or.inl (vc_name_falsy (by rw [he]; rfl))) (Or.inl he)
    · by_cases hs : s = ""
      · subst hs
        exact nameBadCase (Or.inl (vc_name_falsy (by rw [he]; rfl)))
          (Or.inr (by rw [he]; rfl))
      · by_cases hw : pyStrip s = ""
        · exact nameBadCase (Or.inr (vc_name_ws he hs hw)) (Or.inr (by rw [he]; exact hw))
        · have hv := vc_good he hs hw
          have hnm : ¬ nameMissing c := fun hcon => by
            rcases hcon with h | h
            · rw [he] at h; cases h
            · rw [he] at h; exact hw h
          refine ⟨?_, ?_, ?_, ?_, ?_, ?_⟩
          · constructor
            · intro h
              exfalso
              rw [hv] at h
              split_ifs at h with hE hP
              · rcases h with h | h
                · exact emailErr_ne_name1 _ (Option.some.inj h)
                · exact emailErr_ne_name2 _ (Option.some.inj h)
              · rcases h with h | h
                · exact phoneErr_ne_name1 _ (Option.some.inj h)
                · exact phoneErr_ne_name2 _ (Option.some.inj h)
              · rcases h with h | h <;> cases h
            · intro h
              exact absurd h hnm
          · intro _
            rw [hv]
            by_cases hE : emailBad c
            · rw [if_pos hE]
              exact ⟨fun _ => hE, fun _ => ⟨contactEmail c, rfl⟩⟩
            · rw [if_neg hE]
              constructor
              · intro h
                exfalso
                split_ifs at h with hP
                · rcases h with ⟨e, he'⟩
                  exact phoneErr_ne_emailErr _ e (Option.some.inj he')
                · rcases h with ⟨e, he'⟩
                  cases he'
              · intro h
                exact absurd h hE
          · intro _ hE
            rw [hv, if_pos hE]
          · intro _ hE
            rw [hv, if_neg hE]
            by_cases hP : phoneBad c
            · rw [if_pos hP]
              exact ⟨fun _ => hP, fun _ => ⟨contactPhone c, rfl⟩⟩
            · rw [if_neg hP]
              constructor
              · intro h
                rcases h with ⟨p, hp⟩
                cases hp
              · intro h
                exact absurd h hP
          · intro _ hE hP
            rw [hv, if_neg hE, if_pos hP]
          · intro _ hE hP
            rw [hv, if_neg hE, if_neg hP]
  · intro k v h1 h2 h3
    simp only [validate_contact, pyGet_cons_ne c k v "name" h1,
      pyGet_cons_ne c k v "email" h2, pyGet_cons_ne c k v "phone" h3]

/-- C4 witness: the contact `{name: "A", phone: "123"}` has a good name, a
good email and a too-short phone, and `validate_contact` reports the phone
error on it. -/
theorem validate_contact_rules_witness :
    ¬ nameMissing [("name", "A"), ("phone", "123")] ∧
    ¬ emailBad [("name", "A"), ("phone", "123")] ∧
    phoneBad [("name", "A"), ("phone", "123")] ∧
    validate_contact [("name", "A"), ("phone", "123")] =
      some "Phone number too short: 123" := by
  refine ⟨by decide, by decide, by decide, ?_⟩
  rw [(validate_contact_rules [("name", "A"), ("phone", "123")]).1.2.2.2.2.1
    (by decide) (by decide) (by decide)]
  decide

lemma truthy_eq_false_iff (o : Option String) :
    truthy o = false ↔ (o = none ∨ o = some "") := by
  cases o with
  | none => simp [truthy]
  | some s => simp [truthy]

lemma truthy_eq_true_iff (o : Option String) :
    truthy o = true ↔ ¬ (o = none ∨ o = some "") := by
  rw [← truthy_eq_false_iff]
  cases truthy o <;> simp

/-- C5: `validate_deal` checks the rules in order, first failure winning:
missing/empty `title` fails on title; otherwise missing/empty `stage` fails
on stage; otherwise `value` (0 when absent) must be non-negative, else it
fails on value; otherwise a present non-empty `priority` must be exactly one
of Low, Medium, High, else it fails on priority; otherwise valid. The two
concrete examples of the claim behave as stated. -/
theorem validate_deal_rules (d : Deal) :
    ((d.title = none ∨ d.title = some "") →
      validate_deal d = some "Missing required field: title") ∧
    (¬ (d.title = none ∨ d.title = some "") → (d.stage = none ∨ d.stage = some "") →
      validate_deal d = some "Missing required field: stage") ∧
    (¬ (d.title = none ∨ d.title = some "") → ¬ (d.stage = none ∨ d.stage = some "") →
      d.value.getD 0 < 0 →
      validate_deal d = some ("Deal value cannot be negative: " ++ toString (d.value.getD 0))) ∧
    (¬ (d.title = none ∨ d.title = some "") → ¬ (d.stage = none ∨ d.stage = some "") →
      0 ≤ d.value.getD 0 → priorityBad d →
      validate_deal d = some ("Invalid priority: " ++ d.priority.getD "" ++
        " (must be one of ['Low', 'Medium', 'High'])")) ∧
    (¬ (d.title = none ∨ d.title = some "") → ¬ (d.stage = none ∨ d.stage = some "") →
      0 ≤ d.value.getD 0 → ¬ priorityBad d → validate_deal d = none) ∧
    (validate_deal ⟨some "T", some "Lead", some (-1), none, none⟩ =
      some "Deal value cannot be negative: -1" ∧
     validate_deal ⟨some "T", some "Lead", none, some "Urgent", none⟩ =
      some "Invalid priority: Urgent (must be one of ['Low', 'Medium', 'High'])") := by
  refine ⟨?_, ?_, ?_, ?_, ?_, by decide, by decide⟩
  · intro h
    rw [validate_deal, if_pos (by simp [(truthy_eq_false_iff d.title).mpr h])]
  · intro h1 h2
    rw [validate_deal, if_neg (by simp [(truthy_eq_true_iff d.title).mpr h1]),
      if_pos (by simp [(truthy_eq_false_iff d.stage).mpr h2])]
  · intro h1 h2 h3
    rw [validate_deal, if_neg (by simp [(truthy_eq_true_iff d.title).mpr h1]),
      if_neg (by simp [(truthy_eq_true_iff d.stage).mpr h2]), if_pos h3]
  · intro h1 h2 h3 h4
    rw [validate_deal, if_neg (by simp [(truthy_eq_true_iff d.title).mpr h1]),
      if_neg (by simp [(truthy_eq_true_iff d.stage).mpr h2]),
      if_neg (not_lt.mpr h3), if_pos h4]
  · intro h1 h2 h3 h4
    rw [validate_deal, if_neg (by simp [(truthy_eq_true_iff d.title).mpr h1]),
      if_neg (by simp [(truthy_eq_true_iff d.stage).mpr h2]),
      if_neg (not_lt.mpr h3), if_neg h4]

/-- C5 witness: the deal `{title: "T", stage: "Lead", value: 5,
priority: "Medium"}` passes every rule and validates as Ok. -/
theorem validate_deal_rules_witness :
    validate_deal ⟨some "T", some "Lead", some 5, some "Medium", none⟩ = none := by
  rw [(validate_deal_rules ⟨some "T", some "Lead", some 5, some "Medium", none⟩).2.2.2.2.1
    (by decide) (by decide) (by decide) (by decide)]

lemma sumValues_cons (p : String × Bucket) (l : List (String × Bucket)) :
    sumValues (p :: l) = p.2.value + sumValues l := by
  simp [sumValues]

lemma sumCounts_cons (p : String × Bucket) (l : List (String × Bucket)) :
    sumCounts (p :: l) = p.2.count + sumCounts l := by
  simp [sumCounts]

lemma sumValues_bump (m : List (String × Bucket)) (k : String) (v : Int) :
    sumValues (bump m k v) = sumValues m + v := by
  induction m with
  | nil => simp [bump, sumValues]
  | cons p rest ih =>
    obtain ⟨k', b⟩ := p
    by_cases h : k' = k
    · rw [bump, if_pos h, sumValues_cons, sumValues_cons]
      dsimp only
      omega
    · rw [bump, if_neg h, sumValues_cons, sumValues_cons, ih]
      omega

lemma sumCounts_bump (m : List (String × Bucket)) (k : String) (v : Int) :
    sumCounts (bump m k v) = sumCounts m + 1 := by
  induction m with
  | nil => simp [bump, sumCounts]
  | cons p rest ih =>
    obtain ⟨k', b⟩ := p
    by_cases h : k' = k
    · rw [bump, if_pos h, sumCounts_cons, sumCounts_cons]
      dsimp only
      omega
    · rw [bump, if_neg h, sumCounts_cons, sumCounts_cons, ih]
      omega

lemma sumValues_groupFold (key : Deal → String) (deals : List Deal) :
    ∀ m, sumValues (deals.foldl (fun m d => bump m (key d) (effValue d)) m) =
      sumValues m + (deals.map effValue).sum := by
  induction deals with
  | nil => intro m; simp
  | cons d ds ih =>
    intro m
    simp only [List.foldl_cons, List.map_cons, List.sum_cons]
    rw [ih, sumValues_bump]
    omega

lemma sumCounts_groupFold (key : Deal → String) (deals : List Deal) :
    ∀ m, sumCounts (deals.foldl (fun m d => bump m (key d) (effValue d)) m) =
      sumCounts m + deals.length := by
  induction deals with
  | nil => intro m; simp
  | cons d ds ih =>
    intro m
    simp only [List.foldl_cons, List.length_cons]
    rw [ih, sumCounts_bump]
    omega

lemma sumValues_groupRecords (key : Deal → String) (deals : List Deal) :
    sumValues (groupRecords key deals) = (deals.map effValue).sum := by
  have h := sumValues_groupFold key deals []
  simpa [groupRecords, sumValues] using h

lemma sumCounts_groupRecords (key : Deal → String) (deals : List Deal) :
    sumCounts (groupRecords key deals) = deals.length := by
  have h := sumCounts_groupFold key deals []
  simpa [groupRecords, sumCounts] using h

lemma lookupB_cons (k' : String) (b : Bucket) (l : List (String × Bucket)) (k : String) :
    lookupB ((k', b) :: l) k = if k' = k then b else lookupB l k := by
  simp only [lookupB]
  by_cases h : k' = k
  · rw [List.find?_cons_of_pos _ (by simp [h]), if_pos h]
  · rw [List.find?_cons_of_neg _ (by simp [h]), if_neg h]

lemma lookupB_bump (m : List (String × Bucket)) (k : String) (v : Int) (k' : String) :
    lookupB (bump m k v) k' =
      if k = k' then ⟨(lookupB m k').count + 1, (lookupB m k').value + v⟩
      else lookupB m k' := by
  induction m with
  | nil =>
    by_cases h : k = k'
    · simp [bump, lookupB_cons, h, lookupB]
    · simp [bump, lookupB_cons, h, lookupB]
  | cons p rest ih =>
    obtain ⟨k₁, b⟩ := p
    by_cases h1 : k₁ = k
    · subst h1
      simp only [bump, if_pos rfl]
      by_cases h2 : k₁ = k'
      · simp [lookupB_cons, h2]
      · simp [lookupB_cons, h2]
    · simp only [bump, if_neg h1]
      rw [lookupB_cons, lookupB_cons]
      by_cases h2 : k₁ = k'
      · have hkk : ¬ k = k' := fun hh => h1 (h2.trans hh.symm)
        simp [h2, hkk]
      · simp only [if_neg h2]
        exact ih

lemma cntKey_cons (key : Deal → String) (k : String) (d : Deal) (ds : List Deal) :
    cntKey key k (d :: ds) = (if key d = k then 1 else 0) + cntKey key k ds := by
  simp only [cntKey, List.filter_cons]
  by_cases h : key d = k
  · simp [h, Nat.add_comm]
  · simp [h]

lemma sumKey_cons (key : Deal → String) (k : String) (d : Deal) (ds : List Deal) :
    sumKey key k (d :: ds) = (if key d = k then effValue d else 0) + sumKey key k ds := by
  simp only [sumKey, List.filter_cons]
  by_cases h : key d = k
  · simp [h]
  · simp [h]

lemma lookupB_groupFold (key : Deal → String) (k : String) (deals : List Deal) :
    ∀ m, lookupB (deals.foldl (fun m d => bump m (key d) (effValue d)) m) k =
      ⟨(lookupB m k).count + cntKey key k deals,
       (lookupB m k).value + sumKey key k deals⟩ := by
  induction deals with
  | nil =>
    intro m
    simp only [List.foldl_nil, cntKey, sumKey, List.filter_nil, List.length_nil,
      List.map_nil, List.sum_nil, Nat.add_zero, Int.add_zero]
  | cons d ds ih =>
    intro m
    simp only [List.foldl_cons]
    rw [ih (bump m (key d) (effValue d)), lookupB_bump, cntKey_cons, sumKey_cons]
    by_cases h : key d = k
    · simp only [if_pos h]
      refine congrArg₂ Bucket.mk (by omega) (by omega)
    · simp only [if_neg h]
      refine congrArg₂ Bucket.mk (by omega) (by omega)

lemma lookupB_groupRecords (key : Deal → String) (k : String) (deals : List Deal) :
    lookupB (groupRecords key deals) k = ⟨cntKey key k deals, sumKey key k deals⟩ := by
  have h := lookupB_groupFold key k deals []
  simpa [groupRecords, lookupB] using h

lemma keys_bump (m : List (String × Bucket)) (k : String) (v : Int) :
    (bump m k v).map Prod.fst =
      if k ∈ m.map Prod.fst then m.map Prod.fst else m.map Prod.fst ++ [k] := by
  induction m with
  | nil => simp [bump]
  | cons p rest ih =>
    obtain ⟨k₁, b⟩ := p
    by_cases h : k₁ = k
    · subst h
      simp [bump]
    · simp only [bump, if_neg h, List.map_cons]
      rw [ih]
      by_cases h2 : k ∈ rest.map Prod.fst
      · rw [if_pos h2, if_pos (by simp [List.mem_cons, h2])]
      · rw [if_neg h2,
          if_neg (by simp only [List.mem_cons]; rintro (hh | hh)
                     exacts [h hh.symm, h2 hh])]
        simp

lemma keys_groupFold (key : Deal → String) (deals : List Deal) :
    ∀ m, ((deals.foldl (fun m d => bump m (key d) (effValue d)) m).map Prod.fst) =
      deals.foldl (fun ks d => if key d ∈ ks then ks else ks ++ [key d])
        (m.map Prod.fst) := by
  induction deals with
  | nil => intro m; rfl
  | cons d ds ih =>
    intro m
    simp only [List.foldl_cons]
    rw [ih, keys_bump]

lemma keys_groupRecords (key : Deal → String) (deals : List Deal) :
    (groupRecords key deals).map Prod.fst = firstOccurKeys key deals := by
  have h := keys_groupFold key deals []
  simpa [groupRecords, firstOccurKeys] using h

lemma mem_firstOccur_fold (key : Deal → String) (deals : List Deal) (k : String) :
    ∀ ks, (k ∈ deals.foldl (fun ks d => if key d ∈ ks then ks else ks ++ [key d]) ks) ↔
      (k ∈ ks ∨ ∃ d ∈ deals, key d = k) := by
  induction deals with
  | nil => intro ks; simp
  | cons d ds ih =>
    intro ks
    simp only [List.foldl_cons]
    rw [ih]
    by_cases hm : key d ∈ ks
    · rw [if_pos hm]
      constructor
      · rintro (h | ⟨d', hd', hk⟩)
        · exact Or.inl h
        · exact Or.inr ⟨d', List.mem_cons_of_mem _ hd', hk⟩
      · rintro (h | ⟨d', hd', hk⟩)
        · exact Or.inl h
        · rcases List.mem_cons.mp hd' with rfl | hd'2
          · exact Or.inl (hk ▸ hm)
          · exact Or.inr ⟨d', hd'2, hk⟩
    · rw [if_neg hm]
      constructor
      · rintro (h | ⟨d', hd', hk⟩)
        · rcases List.mem_append.mp h with h2 | h2
          · exact Or.inl h2
          · exact Or.inr ⟨d, List.mem_cons_self d ds, (List.mem_singleton.mp h2).symm⟩
        · exact Or.inr ⟨d', List.mem_cons_of_mem _ hd', hk⟩
      · rintro (h | ⟨d', hd', hk⟩)
        · exact Or.inl (List.mem_append.mpr (Or.inl h))
        · rcases List.mem_cons.mp hd' with rfl | hd'2
          · exact Or.inl (List.mem_append.mpr (Or.inr (by simp [hk])))
          · exact Or.inr ⟨d', hd'2, hk⟩

lemma mem_firstOccurKeys (key : Deal → String) (deals : List Deal) (k : String) :
    k ∈ firstOccurKeys key deals ↔ ∃ d ∈ deals, key d = k := by
  rw [firstOccurKeys, mem_firstOccur_fold key deals k []]
  simp

lemma cnt_pos_iff (key : Deal → String) (deals : List Deal) (k : String) :
    0 < cntKey key k deals ↔ ∃ d ∈ deals, key d = k := by
  rw [cntKey, List.length_pos_iff_exists_mem]
  constructor
  · rintro ⟨d, hd⟩
    have h := List.mem_filter.mp hd
    exact ⟨d, h.1, by simpa using h.2⟩
  · rintro ⟨d, hd, hk⟩
    exact ⟨d, List.mem_filter.mpr ⟨hd, by simpa using hk⟩⟩

lemma mem_keys_groupRecords (key : Deal → String) (deals : List Deal) (k : String) :
    k ∈ (groupRecords key deals).map Prod.fst ↔ 0 < cntKey key k deals := by
  rw [keys_groupRecords, mem_firstOccurKeys, cnt_pos_iff]

lemma find?_groupRecords (key : Deal → String) (k : String) (deals : List Deal) :
    (groupRecords key deals).find? (fun q => q.1 == k) =
      if cntKey key k deals = 0 then none
      else some (k, (⟨cntKey key k deals, sumKey key k deals⟩ : Bucket)) := by
  by_cases h0 : cntKey key k deals = 0
  · rw [if_pos h0, List.find?_eq_none]
    intro x hx
    simp only [beq_iff_eq]
    intro hxk
    have hmem : k ∈ (groupRecords key deals).map Prod.fst :=
      List.mem_map.mpr ⟨x, hx, hxk⟩
    rw [mem_keys_groupRecords] at hmem
    omega
  · rw [if_neg h0]
    have hmem : k ∈ (groupRecords key deals).map Prod.fst :=
      (mem_keys_groupRecords key deals k).mpr (by omega)
    obtain ⟨x, hx, hxk⟩ := List.mem_map.mp hmem
    cases hf : (groupRecords key deals).find? (fun q => q.1 == k) with
    | none =>
      rw [List.find?_eq_none] at hf
      exact absurd (by simp [hxk]) (hf x hx)
    | some q =>
      have hq1 : q.1 = k := by
        have h := List.find?_some hf
        simpa using h
      have hq2 : q.2 = lookupB (groupRecords key deals) k := by
        simp [lookupB, hf]
      rw [lookupB_groupRecords] at hq2
      rw [show q = (k, (⟨cntKey key k deals, sumKey key k deals⟩ : Bucket)) from
        Prod.ext hq1 hq2]

lemma priority_breakdown_eq (deals : List Deal) :
    priority_breakdown deals = priority_order.filterMap (fun p =>
      if cntKey effPriority p deals = 0 then none
      else some (p, (⟨cntKey effPriority p deals, sumKey effPriority p deals⟩ : Bucket))) := by
  simp only [priority_breakdown]
  congr 1
  funext p
  rw [find?_groupRecords]
  by_cases h : cntKey effPriority p deals = 0
  · simp [h]
  · simp [h]

lemma sumCounts_filterMap_ite (deals : List Deal) (ord : List String) :
    sumCounts (ord.filterMap (fun p =>
      if cntKey effPriority p deals = 0 then none
      else some (p, (⟨cntKey effPriority p deals, sumKey effPriority p deals⟩ : Bucket)))) =
    (ord.map (fun p => cntKey effPriority p deals)).sum := by
  induction ord with
  | nil => simp [sumCounts]
  | cons p ps ih =>
    by_cases h : cntKey effPriority p deals = 0
    · rw [List.filterMap_cons_none (by rw [if_pos h]), ih, List.map_cons,
        List.sum_cons, h, Nat.zero_add]
    · rw [List.filterMap_cons_some (by rw [if_neg h]), sumCounts_cons, ih,
        List.map_cons, List.sum_cons]

lemma sumValues_filterMap_ite (deals : List Deal) (ord : List String) :
    sumValues (ord.filterMap (fun p =>
      if cntKey effPriority p deals = 0 then none
      else some (p, (⟨cntKey effPriority p deals, sumKey effPriority p deals⟩ : Bucket)))) =
    (ord.map (fun p => sumKey effPriority p deals)).sum := by
  induction ord with
  | nil => simp [sumValues]
  | cons p ps ih =>
    by_cases h : cntKey effPriority p deals = 0
    · rw [List.filterMap_cons_none (by rw [if_pos h]), ih, List.map_cons,
        List.sum_cons]
      have hs : sumKey effPriority p deals = 0 := by
        rw [sumKey, List.length_eq_zero.mp h]
        rfl
      rw [hs, zero_add]
    · rw [List.filterMap_cons_some (by rw [if_neg h]), sumValues_cons, ih,
        List.map_cons, List.sum_cons]

lemma filterlen_cons (p : Deal → Bool) (d : Deal) (ds : List Deal) :
    (List.filter p (d :: ds)).length =
      (if p d = true then 1 else 0) + (List.filter p ds).length := by
  rw [List.filter_cons]
  by_cases h : p d = true
  · simp [h, Nat.add_comm]
  · simp [h]

lemma filtersum_cons (p : Deal → Bool) (d : Deal) (ds : List Deal) :
    ((List.filter p (d :: ds)).map effValue).sum =
      (if p d = true then effValue d else 0) + ((List.filter p ds).map effValue).sum := by
  rw [List.filter_cons]
  by_cases h : p d = true
  · simp [h]
  · simp [h]

lemma not_contains_priority_order {s : String} (h1 : ¬ s = "High") (h2 : ¬ s = "Medium")
    (h3 : ¬ s = "Low") (h4 : ¬ s = "Not Set") :
    ¬ priority_order.contains s = true := by
  intro hc
  have hm : s ∈ priority_order := List.mem_of_elem_eq_true hc
  simp only [priority_order, List.mem_cons, List.not_mem_nil, or_false] at hm
  rcases hm with h | h | h | h
  · exact h1 h
  · exact h2 h
  · exact h3 h
  · exact h4 h

lemma cnt_four (deals : List Deal) :
    cntKey effPriority "High" deals + cntKey effPriority "Medium" deals +
      cntKey effPriority "Low" deals + cntKey effPriority "Not Set" deals =
    (deals.filter (fun d => priority_order.contains (effPriority d))).length := by
  induction deals with
  | nil => simp [cntKey]
  | cons d ds ih =>
    rw [cntKey_cons, cntKey_cons, cntKey_cons, cntKey_cons, filterlen_cons]
    by_cases h1 : effPriority d = "High"
    · rw [h1, if_pos (show ("High" : String) = "High" from rfl),
        if_neg (show ¬ ("High" : String) = "Medium" by decide),
        if_neg (show ¬ ("High" : String) = "Low" by decide),
        if_neg (show ¬ ("High" : String) = "Not Set" by decide),
        if_pos (show priority_order.contains "High" = true by decide)]
      omega
    · by_cases h2 : effPriority d = "Medium"
      · rw [h2, if_neg (show ¬ ("Medium" : String) = "High" by decide),
          if_pos (show ("Medium" : String) = "Medium" from rfl),
          if_neg (show ¬ ("Medium" : String) = "Low" by decide),
          if_neg (show ¬ ("Medium" : String) = "Not Set" by decide),
          if_pos (show priority_order.contains "Medium" = true by decide)]
        omega
      · by_cases h3 : effPriority d = "Low"
        · rw [h3, if_neg (show ¬ ("Low" : String) = "High" by decide),
            if_neg (show ¬ ("Low" : String) = "Medium" by decide),
            if_pos (show ("Low" : String) = "Low" from rfl),
            if_neg (show ¬ ("Low" : String) = "Not Set" by decide),
            if_pos (show priority_order.contains "Low" = true by decide)]
          omega
        · by_cases h4 : effPriority d = "Not Set"
          · rw [h4, if_neg (show ¬ ("Not Set" : String) = "High" by decide),
              if_neg (show ¬ ("Not Set" : String) = "Medium" by decide),
              if_neg (show ¬ ("Not Set" : String) = "Low" by decide),
              if_pos (show ("Not Set" : String) = "Not Set" from rfl),
              if_pos (show priority_order.contains "Not Set" = true by decide)]
            omega
          · rw [if_neg h1, if_neg h2, if_neg h3, if_neg h4,
              if_neg (not_contains_priority_order h1 h2 h3 h4)]
            omega

lemma sum_four (deals : List Deal) :
    sumKey effPriority "High" deals + sumKey effPriority "Medium" deals +
      sumKey effPriority "Low" deals + sumKey effPriority "Not Set" deals =
    ((deals.filter (fun d => priority_order.contains (effPriority d))).map effValue).sum := by
  induction deals with
  | nil => simp [sumKey]
  | cons d ds ih =>
    rw [sumKey_cons, sumKey_cons, sumKey_cons, sumKey_cons, filtersum_cons]
    by_cases h1 : effPriority d = "High"
    · rw [h1, if_pos (show ("High" : String) = "High" from rfl),
        if_neg (show ¬ ("High" : String) = "Medium" by decide),
        if_neg (show ¬ ("High" : String) = "Low" by decide),
        if_neg (show ¬ ("High" : String) = "Not Set" by decide),
        if_pos (show priority_order.contains "High" = true by decide)]
      omega
    · by_cases h2 : effPriority d = "Medium"
      · rw [h2, if_neg (show ¬ ("Medium" : String) = "High" by decide),
          if_pos (show ("Medium" : String) = "Medium" from rfl),
          if_neg (show ¬ ("Medium" : String) = "Low" by decide),
          if_neg (show ¬ ("Medium" : String) = "Not Set" by decide),
          if_pos (show priority_order.contains "Medium" = true by decide)]
        omega
      · by_cases h3 : effPriority d = "Low"
        · rw [h3, if_neg (show ¬ ("Low" : String) = "High" by decide),
            if_neg (show ¬ ("Low" : String) = "Medium" by decide),
            if_pos (show ("Low" : String) = "Low" from rfl),
            if_neg (show ¬ ("Low" : String) = "Not Set" by decide),
            if_pos (show priority_order.contains "Low" = true by decide)]
          omega
        · by_cases h4 : effPriority d = "Not Set"
          · rw [h4, if_neg (show ¬ ("Not Set" : String) = "High" by decide),
              if_neg (show ¬ ("Not Set" : String) = "Medium" by decide),
              if_neg (show ¬ ("Not Set" : String) = "Low" by decide),
              if_pos (show ("Not Set" : String) = "Not Set" from rfl),
              if_pos (show priority_order.contains "Not Set" = true by decide)]
            omega
          · rw [if_neg h1, if_neg h2, if_neg h3, if_neg h4,
              if_neg (not_contains_priority_order h1 h2 h3 h4)]
            omega

lemma pipeline_stages (deals : List Deal) :
    (pipeline_by_stage deals).stages = groupRecords effStage deals := rfl

lemma pipeline_sorted (deals : List Deal) :
    (pipeline_by_stage deals).sortedStages =
      (groupRecords effStage deals).insertionSort (fun a b => b.2.value ≤ a.2.value) := rfl

lemma pipeline_totalValue (deals : List Deal) :
    (pipeline_by_stage deals).totalValue =
      sumValues (pipeline_by_stage deals).sortedStages := rfl

lemma pipeline_totalCount (deals : List Deal) :
    (pipeline_by_stage deals).totalCount =
      sumCounts (pipeline_by_stage deals).sortedStages := rfl

lemma pipeline_percentages (deals : List Deal) :
    (pipeline_by_stage deals).percentages =
      (pipeline_by_stage deals).sortedStages.map (fun p =>
        (p.1, if 0 < (pipeline_by_stage deals).totalValue
              then (p.2.value : ℚ) / ((pipeline_by_stage deals).totalValue : ℚ) * 100
              else 0)) := rfl

lemma sorted_perm_stages (deals : List Deal) :
    ((pipeline_by_stage deals).sortedStages).Perm (pipeline_by_stage deals).stages := by
  rw [pipeline_sorted, pipeline_stages]
  exact List.perm_insertionSort _ _

lemma sumValues_perm {l l' : List (String × Bucket)} (h : l.Perm l') :
    sumValues l = sumValues l' := by
  simp only [sumValues]
  exact (h.map (fun p => p.2.value)).sum_eq

lemma sumCounts_perm {l l' : List (String × Bucket)} (h : l.Perm l') :
    sumCounts l = sumCounts l' := by
  simp only [sumCounts]
  exact (h.map (fun p => p.2.count)).sum_eq

/-- C6 counterexample: on the single deal `{stage: "A", value: -100}` the
total value is -100, which is neither 0 nor positive; the code reports the
percentage 0 for group "A", while the claim's formula
`groupValue / totalValue * 100` gives 100 there. -/
theorem pipeline_percentage_counterexample :
    (pipeline_by_stage [⟨none, some "A", some (-100), none, none⟩]).totalValue = -100 ∧
    (pipeline_by_stage [⟨none, some "A", some (-100), none, none⟩]).percentages =
      [("A", 0)] ∧
    ((-100 : ℚ) / (-100 : ℚ) * 100 = 100) ∧ ((0 : ℚ) ≠ 100) := by
  refine ⟨by decide, by decide, by norm_num, by norm_num⟩

/-- C6 amended: the sum of the per-stage bucket values equals the sum of the
deals' values (missing value = 0), the sum of the bucket counts equals the
number of deals, the printed grand totals agree with those sums, and each
printed percentage is `groupValue / totalValue * 100` when `totalValue > 0`
and 0 otherwise (in particular 0 when `totalValue` is 0). -/
theorem pipeline_totals (deals : List Deal) :
    sumValues (pipeline_by_stage deals).stages = (deals.map effValue).sum ∧
    sumCounts (pipeline_by_stage deals).stages = deals.length ∧
    (pipeline_by_stage deals).totalValue = (deals.map effValue).sum ∧
    (pipeline_by_stage deals).totalCount = deals.length ∧
    (∀ s q, (s, q) ∈ (pipeline_by_stage deals).percentages →
      ∃ b, (s, b) ∈ (pipeline_by_stage deals).stages ∧
        q = if 0 < (pipeline_by_stage deals).totalValue
            then (b.value : ℚ) / ((pipeline_by_stage deals).totalValue : ℚ) * 100
            else 0) := by
  have hperm := sorted_perm_stages deals
  have h1 : sumValues (pipeline_by_stage deals).stages = (deals.map effValue).sum := by
    rw [pipeline_stages, sumValues_groupRecords]
  have h2 : sumCounts (pipeline_by_stage deals).stages = deals.length := by
    rw [pipeline_stages, sumCounts_groupRecords]
  refine ⟨h1, h2, ?_, ?_, ?_⟩
  · rw [pipeline_totalValue, sumValues_perm hperm, h1]
  · rw [pipeline_totalCount, sumCounts_perm hperm, h2]
  · intro s q hm
    rw [pipeline_percentages] at hm
    obtain ⟨x, hx, hxe⟩ := List.mem_map.mp hm
    have he1 : x.1 = s := congrArg Prod.fst hxe
    have he2 : (if 0 < (pipeline_by_stage deals).totalValue
        then (x.2.value : ℚ) / ((pipeline_by_stage deals).totalValue : ℚ) * 100
        else 0) = q := congrArg Prod.snd hxe
    refine ⟨x.2, ?_, he2.symm⟩
    have hxs : x ∈ (pipeline_by_stage deals).stages := hperm.mem_iff.mp hx
    rw [← he1]
    exact hxs

/-- C6 witness: on the single deal `{stage: "A", value: 0}` the percentage
reported for "A" is 0, and the bucket of "A" satisfies the percentage rule. -/
theorem pipeline_totals_witness :
    ∃ b, ("A", b) ∈ (pipeline_by_stage [⟨none, some "A", some 0, none, none⟩]).stages ∧
      (0 : ℚ) =
        if 0 < (pipeline_by_stage [⟨none, some "A", some 0, none, none⟩]).totalValue
        then (b.value : ℚ) /
          ((pipeline_by_stage [⟨none, some "A", some 0, none, none⟩]).totalValue : ℚ) * 100
        else 0 :=
  (pipeline_totals [⟨none, some "A", some 0, none, none⟩]).2.2.2.2 "A" 0 (by decide)

/-- C7 counterexample: on deals `[{stage: "A", value: 1}, {stage: "B",
value: 2}]` the grouping `pipeline_by_stage` returns to its caller is the
dict in first-encounter order `[("A", 1), ("B", 2)]`, which is not ordered
by descending summed value; only the printed listing is sorted. -/
theorem pipeline_return_order_counterexample :
    (pipeline_by_stage [⟨none, some "A", some 1, none, none⟩,
        ⟨none, some "B", some 2, none, none⟩]).stages =
      [("A", ⟨1, 1⟩), ("B", ⟨1, 2⟩)] ∧
    ¬ List.Pairwise (fun a b => b.2.value ≤ a.2.value)
        (pipeline_by_stage [⟨none, some "A", some 1, none, none⟩,
          ⟨none, some "B", some 2, none, none⟩]).stages ∧
    (pipeline_by_stage [⟨none, some "A", some 1, none, none⟩,
        ⟨none, some "B", some 2, none, none⟩]).sortedStages =
      [("B", ⟨1, 2⟩), ("A", ⟨1, 1⟩)] := by
  refine ⟨by decide, ?_, by decide⟩
  intro hp
  rw [show (pipeline_by_stage [⟨none, some "A", some 1, none, none⟩,
      ⟨none, some "B", some 2, none, none⟩]).stages =
      [("A", (⟨1, 1⟩ : Bucket)), ("B", ⟨1, 2⟩)] from by decide] at hp
  have h2 := (List.pairwise_cons.mp hp).1 ("B", ⟨1, 2⟩) (by simp)
  exact absurd h2 (by decide)

/-- C7 amended: `pipeline_by_stage` groups deals by stage (default
`Unknown`): the bucket of every stage name holds the count and summed value
of exactly the deals with that effective stage; the grouping returned to the
caller lists the stages in first-encounter order, while the displayed
listing is a permutation of it ordered by descending summed value. -/
theorem pipeline_grouping_and_order (deals : List Deal) :
    (∀ s, lookupB (pipeline_by_stage deals).stages s =
      ⟨cntKey effStage s deals, sumKey effStage s deals⟩) ∧
    (pipeline_by_stage deals).stages.map Prod.fst = firstOccurKeys effStage deals ∧
    List.Pairwise (fun a b => b.2.value ≤ a.2.value)
      (pipeline_by_stage deals).sortedStages ∧
    ((pipeline_by_stage deals).sortedStages).Perm (pipeline_by_stage deals).stages := by
  refine ⟨?_, ?_, ?_, sorted_perm_stages deals⟩
  · intro s
    rw [pipeline_stages, lookupB_groupRecords]
  · rw [pipeline_stages, keys_groupRecords]
  · rw [pipeline_sorted]
    haveI ht : IsTotal (String × Bucket) (fun a b => b.2.value ≤ a.2.value) :=
      ⟨fun a b => le_total b.2.value a.2.value⟩
    haveI htr : IsTrans (String × Bucket) (fun a b => b.2.value ≤ a.2.value) :=
      ⟨fun a b c hab hbc => le_trans hbc hab⟩
    exact List.sorted_insertionSort _ _

lemma wra_rate (deals : List Deal) :
    (win_rate_analysis deals).win_rate =
      if 0 < (win_rate_analysis deals).won + (win_rate_analysis deals).lost
      then ((win_rate_analysis deals).won : ℚ) /
        (((win_rate_analysis deals).won : ℚ) + ((win_rate_analysis deals).lost : ℚ)) * 100
      else 0 := rfl

/-- C8: `win_rate_analysis` counts Closed Won and Closed Lost deals, sets
`active = total - won - lost` and `win_rate = won / (won + lost) * 100`,
0 when `won + lost` is 0; the three-deal example of the claim returns
total 3, won 1, lost 1, active 1, win_rate 50. -/
theorem win_rate_analysis_spec (deals : List Deal) :
    (win_rate_analysis deals).total = deals.length ∧
    (win_rate_analysis deals).won =
      (deals.filter (fun d => d.stage == some "Closed Won")).length ∧
    (win_rate_analysis deals).lost =
      (deals.filter (fun d => d.stage == some "Closed Lost")).length ∧
    (win_rate_analysis deals).active = ((win_rate_analysis deals).total : Int) -
      (win_rate_analysis deals).won - (win_rate_analysis deals).lost ∧
    ((win_rate_analysis deals).won + (win_rate_analysis deals).lost = 0 →
      (win_rate_analysis deals).win_rate = 0) ∧
    ((win_rate_analysis deals).won + (win_rate_analysis deals).lost ≠ 0 →
      (win_rate_analysis deals).win_rate = ((win_rate_analysis deals).won : ℚ) /
        (((win_rate_analysis deals).won : ℚ) + ((win_rate_analysis deals).lost : ℚ)) * 100) ∧
    win_rate_analysis [⟨none, some "Closed Won", some 25000, none, none⟩,
      ⟨none, some "Closed Lost", some 10000, none, none⟩,
      ⟨none, some "Negotiation", some 45000, none, none⟩] = ⟨3, 1, 1, 1, 50⟩ := by
  refine ⟨rfl, rfl, rfl, rfl, ?_, ?_, ?_⟩
  · intro h
    rw [wra_rate, if_neg (by omega)]
  · intro h
    rw [wra_rate, if_pos (by omega)]
  · have h : win_rate_analysis [⟨none, some "Closed Won", some 25000, none, none⟩,
        ⟨none, some "Closed Lost", some 10000, none, none⟩,
        ⟨none, some "Negotiation", some 45000, none, none⟩] =
        ⟨3, 1, 1, 1, ((1 : Nat) : ℚ) / (((1 : Nat) : ℚ) + ((1 : Nat) : ℚ)) * 100⟩ := rfl
    rw [h]
    norm_num [WinRateResult.mk.injEq]

/-- C8 witness: a single Negotiation deal has `won + lost = 0` and win rate
0; a single Closed Won deal has `won + lost = 1` and the ratio formula
applies. -/
theorem win_rate_analysis_spec_witness :
    (win_rate_analysis [⟨none, some "Negotiation", some 45000, none, none⟩]).win_rate = 0 ∧
    (win_rate_analysis [⟨none, some "Closed Won", some 1, none, none⟩]).win_rate =
      ((win_rate_analysis [⟨none, some "Closed Won", some 1, none, none⟩]).won : ℚ) /
        (((win_rate_analysis [⟨none, some "Closed Won", some 1, none, none⟩]).won : ℚ) +
         ((win_rate_analysis [⟨none, some "Closed Won", some 1, none, none⟩]).lost : ℚ)) *
        100 :=
  ⟨(win_rate_analysis_spec [⟨none, some "Negotiation", some 45000, none, none⟩]).2.2.2.2.1
      (by decide),
   (win_rate_analysis_spec [⟨none, some "Closed Won", some 1, none, none⟩]).2.2.2.2.2.1
      (by decide)⟩

lemma stage_probability_eq_claim {s : String} (h1 : s ≠ "Closed Won")
    (h2 : s ≠ "Closed Lost") : stage_probability s = claimProbability s := by
  simp only [stage_probability, claimProbability]
  split_ifs <;> rfl

lemma forecast_fold (deals : List Deal) :
    ∀ (a : Int) (w : ℚ),
    deals.foldl
      (fun acc d =>
        if ¬ (effStage d = "Closed Won" ∨ effStage d = "Closed Lost") then
          (acc.1 + effValue d, acc.2 + (effValue d : ℚ) * stage_probability (effStage d))
        else acc) (a, w) =
      (a + ((deals.filter (fun d =>
          decide (¬ (effStage d = "Closed Won" ∨ effStage d = "Closed Lost")))).map
            effValue).sum,
       w + ((deals.filter (fun d =>
          decide (¬ (effStage d = "Closed Won" ∨ effStage d = "Closed Lost")))).map
            (fun d => (effValue d : ℚ) * stage_probability (effStage d))).sum) := by
  induction deals with
  | nil => intro a w; simp
  | cons d ds ih =>
    intro a w
    simp only [List.foldl_cons, List.filter_cons]
    by_cases h : effStage d = "Closed Won" ∨ effStage d = "Closed Lost"
    · rw [if_neg (not_not_intro h),
        show (decide (¬ (effStage d = "Closed Won" ∨ effStage d = "Closed Lost"))) = false
          by simp [h]]
      simp only [Bool.false_eq_true, if_false]
      exact ih a w
    · rw [if_pos h, show (decide (¬ (effStage d = "Closed Won" ∨
          effStage d = "Closed Lost"))) = true from decide_eq_true h]
      simp only [if_true]
      rw [ih (a + effValue d) (w + (effValue d : ℚ) * stage_probability (effStage d))]
      simp only [List.map_cons, List.sum_cons, Prod.mk.injEq]
      constructor <;> ring

/-- C9: `forecast_analysis` sums, over exactly the deals whose effective
stage is neither Closed Won nor Closed Lost, the unweighted value into the
active pipeline and `value * probability` into the weighted forecast, where
the probability is the claim's table (Lead 0.1, Qualified 0.25, Proposal
Sent 0.5, Negotiation 0.75, 0.3 for any other stage); on the claim's
three-deal example it returns active 45000 and weighted 33750. -/
theorem forecast_analysis_spec (deals : List Deal) :
    (forecast_analysis deals).1 = ((deals.filter (fun d =>
        decide (¬ (effStage d = "Closed Won" ∨ effStage d = "Closed Lost")))).map
          effValue).sum ∧
    (forecast_analysis deals).2 = ((deals.filter (fun d =>
        decide (¬ (effStage d = "Closed Won" ∨ effStage d = "Closed Lost")))).map
          (fun d => (effValue d : ℚ) * claimProbability (effStage d))).sum ∧
    forecast_analysis [⟨none, some "Closed Won", some 25000, none, none⟩,
      ⟨none, some "Closed Lost", some 10000, none, none⟩,
      ⟨none, some "Negotiation", some 45000, none, none⟩] = (45000, 33750) := by
  have hf := forecast_fold deals 0 0
  refine ⟨?_, ?_, ?_⟩
  · rw [forecast_analysis, hf]
    simp
  · rw [forecast_analysis, hf]
    simp only [zero_add]
    refine congrArg List.sum (List.map_congr_left ?_)
    intro d hd
    have hmem := List.mem_filter.mp hd
    have hnt : ¬ (effStage d = "Closed Won" ∨ effStage d = "Closed Lost") :=
      of_decide_eq_true hmem.2
    rw [stage_probability_eq_claim (fun hh => hnt (Or.inl hh)) (fun hh => hnt (Or.inr hh))]
  · have h : forecast_analysis [⟨none, some "Closed Won", some 25000, none, none⟩,
        ⟨none, some "Closed Lost", some 10000, none, none⟩,
        ⟨none, some "Negotiation", some 45000, none, none⟩] =
        ((0 : Int) + 45000,
         (0 : ℚ) + ((45000 : Int) : ℚ) * stage_probability "Negotiation") := rfl
    rw [h]
    norm_num [stage_probability, Prod.ext_iff]
    rw [if_neg (by decide), if_neg (by decide), if_neg (by decide)]

/-- C10: every bucket reported by `priority_breakdown` has one of the keys
High, Medium, Low, Not Set, and the reported counts and values sum over
exactly the deals whose effective priority is one of those four; a deal with
any other non-empty priority (such as "Urgent") contributes to no reported
bucket, so the reported counts need not sum to the number of deals. -/
theorem priority_breakdown_spec (deals : List Deal) :
    (∀ x ∈ priority_breakdown deals, x.1 ∈ priority_order) ∧
    sumCounts (priority_breakdown deals) =
      (deals.filter (fun d => priority_order.contains (effPriority d))).length ∧
    sumValues (priority_breakdown deals) =
      ((deals.filter (fun d => priority_order.contains (effPriority d))).map effValue).sum ∧
    priority_breakdown [⟨none, none, some 7, some "Urgent", none⟩] = [] ∧
    sumCounts (priority_breakdown [⟨none, none, some 7, some "Urgent", none⟩]) ≠
      [(⟨none, none, some 7, some "Urgent", none⟩ : Deal)].length := by
  refine ⟨?_, ?_, ?_, by decide, by decide⟩
  · intro x hx
    simp only [priority_breakdown] at hx
    obtain ⟨p, hp, hfx⟩ := List.mem_filterMap.mp hx
    obtain ⟨q, hq, hqx⟩ := Option.map_eq_some'.mp hfx
    have hx1 : x.1 = p := by rw [← hqx]
    rw [hx1]
    exact hp
  · rw [priority_breakdown_eq, sumCounts_filterMap_ite]
    have h4 := cnt_four deals
    conv_lhs => rw [priority_order]
    simp only [List.map_cons, List.map_nil, List.sum_cons, List.sum_nil]
    omega
  · rw [priority_breakdown_eq, sumValues_filterMap_ite]
    have h4 := sum_four deals
    conv_lhs => rw [priority_order]
    simp only [List.map_cons, List.map_nil, List.sum_cons, List.sum_nil]
    omega

/-- C10 witness: on the single deal with priority "Low" the reported bucket
("Low", 1 deal, value 7) has its key in the fixed priority order. -/
theorem priority_breakdown_spec_witness :
    ("Low", (⟨1, 7⟩ : Bucket)).1 ∈ priority_order :=
  (priority_breakdown_spec [⟨none, none, some 7, some "Low", none⟩]).1
    ("Low", ⟨1, 7⟩) (by decide)

end ZeroCrm
